import Mathlib

/-!
Verification of the CameraGPT core pipeline: the trigger evaluator
`check_trigger` (src/camera_daemon.py) and the frame differencer
`calculate_diff` (src/image_utils.py), shallowly embedded in Lean.

Strings are modelled as lists of Unicode code points (exactly Python's
string model).  Python float values produced by `float()` on the decimal
literals the scans extract are modelled exactly, as scaled decimals
`mant / 10 ^ scale`; every comparison the program performs is realised by
integer cross multiplication, which coincides with the rational order.
-/

/-- A Python string: a finite sequence of Unicode code points. -/
abbrev Str := List Char

/-- Code points of a Lean string literal. -/
def chars (s : String) : Str := s.data

/-- Whitespace characters: the set stripped by Python `str.strip()` and matched
by the regex class `\s` (the ASCII portion, which is all this program meets). -/
def isPySpace (c : Char) : Bool :=
  c == ' ' || c == '\t' || c == '\n' || c == '\r' || c == '\x0b' || c == '\x0c'

/-- Python `str.strip()`: drop leading and trailing whitespace
(camera_daemon.py lines 49-50). -/
def pyStrip (s : Str) : Str :=
  ((s.dropWhile isPySpace).reverse.dropWhile isPySpace).reverse

/-- Python `str.lower()`, character-wise; ASCII case mapping
(CJK characters are fixed points of lowering). -/
def toLowerS (s : Str) : Str := s.map Char.toLower

/-- Does the second string start with the first?  Helper for the Python
substring test. -/
def beginsWith : Str → Str → Bool
  | [], _ => true
  | _ :: _, [] => false
  | a :: n, b :: h => a == b && beginsWith n h

/-- Python's `needle in hay`: contiguous substring containment. -/
def isSub (n : Str) : Str → Bool
  | [] => n.isEmpty
  | c :: t => beginsWith n (c :: t) || isSub n t

/-- The comparison operator captured by group 1 of the trigger regex
`^([<>]=?|!=|=)` (camera_daemon.py line 54). -/
inductive NumOp
  | lt | gt | le | ge | eq | ne
  deriving DecidableEq, Repr

/-- An exact decimal number, of value `mant / 10 ^ scale`.  This models the
Python float produced by `float()` on the decimal literals extracted by the
scans (exact rational semantics for those literals). -/
structure Deci where
  mant : Int
  scale : Nat
  deriving DecidableEq, Repr

/-- Rational value of a scaled decimal. -/
def Deci.toRat (d : Deci) : ℚ := (d.mant : ℚ) / (10 : ℚ) ^ d.scale

/-- Numeric value of a string of ASCII digits, most significant first. -/
def digitsToNat (ds : Str) : Nat :=
  ds.foldl (fun acc c => 10 * acc + (c.toNat - 48)) 0

/-- Value of an unsigned decimal literal read at the start of `s`:
greedy digits, then optionally a dot and greedy digits; anything after is
ignored, mirroring what the regex capture `\d+(?:\.\d+)?` keeps. -/
def parseUnsigned (s : Str) : Deci :=
  let ds := s.takeWhile Char.isDigit
  match s.dropWhile Char.isDigit with
  | '.' :: fs0 =>
    let fs := fs0.takeWhile Char.isDigit
    ⟨Int.ofNat (digitsToNat ds * 10 ^ fs.length + digitsToNat fs), fs.length⟩
  | _ => ⟨Int.ofNat (digitsToNat ds), 0⟩

/-- Python `float()` applied to one string produced by the number scan
(camera_daemon.py line 71); the scanned strings are an optional sign followed
by an unsigned decimal literal. -/
def parseNum (s : Str) : Deci :=
  match s with
  | '-' :: r => let d := parseUnsigned r; ⟨-d.mant, d.scale⟩
  | '+' :: r => parseUnsigned r
  | _ => parseUnsigned s

/-- Match of the regex alternative `\d+` at the start of `s` (greedy). -/
def matchInt (s : Str) : Option Str :=
  if s.takeWhile Char.isDigit = [] then none else some (s.takeWhile Char.isDigit)

/-- Match of the unsigned part `\d*\.\d+` at the start of `s`
(greedy; requires a dot with at least one digit after it). -/
def matchUDec (s : Str) : Option Str :=
  match s.dropWhile Char.isDigit with
  | '.' :: fs0 =>
    if fs0.takeWhile Char.isDigit = [] then none
    else some (s.takeWhile Char.isDigit ++ '.' :: fs0.takeWhile Char.isDigit)
  | _ => none

/-- Match of the regex alternative `[-+]?\d*\.\d+` at the start of `s`. -/
def matchDec (s : Str) : Option Str :=
  match s with
  | c :: r =>
    if c == '-' || c == '+' then (matchUDec r).map (fun m => c :: m)
    else matchUDec s
  | [] => none

/-- One step of the scan `re.findall(r"[-+]?\d*\.\d+|\d+", response)`: at a
given position the first alternative is preferred over the second. -/
def matchNumber (s : Str) : Option Str :=
  match matchDec s with
  | some m => some m
  | none => matchInt s

theorem matchUDec_pos {s m : Str} (h : matchUDec s = some m) : 0 < m.length := by
  unfold matchUDec at h
  split at h
  · split at h
    · exact absurd h (by simp)
    · simp only [Option.some.injEq] at h
      subst h
      simp [List.length_append]
  · exact absurd h (by simp)

theorem matchDec_pos {s m : Str} (h : matchDec s = some m) : 0 < m.length := by
  unfold matchDec at h
  split at h
  · rename_i c r
    split at h
    · cases hu : matchUDec r with
      | some mu =>
        rw [hu] at h
        simp at h
        subst h
        simp
      | none => rw [hu] at h; exact absurd h (by simp)
    · exact matchUDec_pos h
  · exact absurd h (by simp)

theorem matchInt_pos {s m : Str} (h : matchInt s = some m) : 0 < m.length := by
  unfold matchInt at h
  split at h
  · exact absurd h (by simp)
  · rename_i hne
    simp only [Option.some.injEq] at h
    subst h
    exact List.length_pos.mpr hne

theorem matchNumber_pos {s m : Str} (h : matchNumber s = some m) : 0 < m.length := by
  unfold matchNumber at h
  split at h
  · rename_i md hd
    simp only [Option.some.injEq] at h
    exact h ▸ matchDec_pos hd
  · exact matchInt_pos h

/-- One pass of the scan `re.findall(r"[-+]?\d*\.\d+|\d+", response)`: at each
position try the decimal alternative, then the integer alternative; on a match,
emit it and resume after its last character; otherwise advance one character
(camera_daemon.py line 60).  Structured with a step budget so the definition is
structurally recursive; every step consumes at least one character, so a budget
of the string length never runs out (`findNumberStrsGo_fuel` below). -/
def findNumberStrsGo : Nat → Str → List Str
  | 0, _ => []
  | _, [] => []
  | fuel + 1, c :: rest =>
    match matchNumber (c :: rest) with
    | some m => m :: findNumberStrsGo fuel ((c :: rest).drop m.length)
    | none => findNumberStrsGo fuel rest

/-- The scan of the answer for numeric substrings (camera_daemon.py line 60). -/
def findNumberStrs (s : Str) : List Str := findNumberStrsGo s.length s

/-- Any step budget of at least the string length gives the same scan, so the
budget in `findNumberStrs` is immaterial: the definition agrees with the
unbounded left-to-right regex scan. -/
theorem findNumberStrsGo_fuel :
    ∀ (f1 f2 : Nat) (s : Str), s.length ≤ f1 → s.length ≤ f2 →
      findNumberStrsGo f1 s = findNumberStrsGo f2 s := by
  intro f1
  induction f1 with
  | zero =>
    intro f2 s h1 _
    have hs : s = [] := List.length_eq_zero.mp (Nat.le_zero.mp h1)
    subst hs
    cases f2 <;> rfl
  | succ f ih =>
    intro f2 s h1 h2
    cases s with
    | nil => cases f2 <;> rfl
    | cons c rest =>
      cases f2 with
      | zero => exact absurd h2 (by simp)
      | succ g =>
        show findNumberStrsGo (f + 1) (c :: rest) = findNumberStrsGo (g + 1) (c :: rest)
        simp only [findNumberStrsGo]
        cases hm : matchNumber (c :: rest) with
        | some m =>
          have hp := matchNumber_pos hm
          have hd : ((c :: rest).drop m.length).length ≤ f := by
            simp only [List.length_drop, List.length_cons]
            simp only [List.length_cons] at h1
            omega
          have hd2 : ((c :: rest).drop m.length).length ≤ g := by
            simp only [List.length_drop, List.length_cons]
            simp only [List.length_cons] at h2
            omega
          show m :: findNumberStrsGo f ((c :: rest).drop m.length)
            = m :: findNumberStrsGo g ((c :: rest).drop m.length)
          rw [ih _ _ hd hd2]
        | none =>
          have hr : rest.length ≤ f := by
            simp only [List.length_cons] at h1
            omega
          have hr2 : rest.length ≤ g := by
            simp only [List.length_cons] at h2
            omega
          show findNumberStrsGo f rest = findNumberStrsGo g rest
          exact ih _ _ hr hr2

/-- All numbers the program extracts from an answer, in scan order. -/
def findNumbers (s : Str) : List Deci := (findNumberStrs s).map parseNum

/-- Ten to a natural power, as an integer. -/
def pow10 : Nat → Int
  | 0 => 1
  | n + 1 => 10 * pow10 n

/-- Absolute value of an integer. -/
def iabs (x : Int) : Int := if x < 0 then -x else x

/-- Exact order on scaled decimals by integer cross multiplication:
`a < b` as rational numbers. -/
def dlt (a b : Deci) : Bool :=
  decide (a.mant * pow10 b.scale < b.mant * pow10 a.scale)

/-- Exact order on scaled decimals: `a ≤ b` as rational numbers. -/
def dle (a b : Deci) : Bool :=
  decide (a.mant * pow10 b.scale ≤ b.mant * pow10 a.scale)

/-- Exact test `|a - b| < 1/100` on scaled decimals, by cross multiplication.
This models the tolerance test `abs(val - target_val) < 0.01` of
camera_daemon.py line 82 with exact rationals; when the rational distance is
exactly 1/100 the program's IEEE-double test can land on either side of the
tolerance depending on rounding, so no theorem in this file relies on the
model at that boundary - boundary inputs appear only in closed evaluations
whose program outcome is checked to coincide. -/
def dCloseLt (a b : Deci) : Bool :=
  decide (100 * iabs (a.mant * pow10 b.scale - b.mant * pow10 a.scale)
    < pow10 (a.scale + b.scale))

/-- Exact test `|a - b| > 1/100` on scaled decimals, by cross multiplication.
This models the strict test `abs(val - target_val) > 0.01` of
camera_daemon.py line 84 with exact rationals; as with `dCloseLt`, the
program's IEEE-double comparison can disagree with the exact model when the
rational distance is exactly 1/100, so no theorem in this file relies on the
model at that boundary - boundary inputs appear only in closed evaluations
whose program outcome is checked to coincide. -/
def dFarGt (a b : Deci) : Bool :=
  decide (pow10 (a.scale + b.scale)
    < 100 * iabs (a.mant * pow10 b.scale - b.mant * pow10 a.scale))

/-- The per-number comparison of Strategy 1, one row of the operator table
(camera_daemon.py lines 72-84): value `v` against target `t`.  Equality is the
tolerance test `|v - t| < 0.01` (line 82) and inequality the strict test
`|v - t| > 0.01` (line 84). -/
def evalOp : NumOp → Deci → Deci → Bool
  | .gt, v, t => dlt t v
  | .lt, v, t => dlt v t
  | .ge, v, t => dle t v
  | .le, v, t => dle v t
  | .eq, v, t => dCloseLt v t
  | .ne, v, t => dFarGt v t

/-- The anchored operator alternation `[<>]=?|!=|=` of the trigger regex
(camera_daemon.py line 54); returns the operator and the rest of the string.
A lone `=` is an operator, but `==` is not: after the single `=` is consumed
the regex immediately requires a digit, which the second `=` is not. -/
def parseOpAt : Str → Option (NumOp × Str)
  | [] => none
  | c :: r =>
    if c = '<' then
      match r with
      | '=' :: r2 => some (.le, r2)
      | _ => some (.lt, r)
    else if c = '>' then
      match r with
      | '=' :: r2 => some (.ge, r2)
      | _ => some (.gt, r)
    else if c = '!' then
      match r with
      | '=' :: r2 => some (.ne, r2)
      | _ => none
    else if c = '=' then some (.eq, r)
    else none

/-- `re.match(r'^([<>]=?|!=|=)(?:\s*)(\d+(?:\.\d+)?)', trigger)` applied to the
stripped trigger (camera_daemon.py lines 54-57): the operator, optional
whitespace, then a mandatory digit run with an optional fraction; trailing
characters are ignored by `re.match`. -/
def parseNumericTrigger (s : Str) : Option (NumOp × Deci) :=
  match parseOpAt s with
  | none => none
  | some (op, r1) =>
    if (r1.dropWhile isPySpace).takeWhile Char.isDigit = [] then none
    else some (op, parseUnsigned (r1.dropWhile isPySpace))

/-- camera_daemon.py line 97. -/
def affirmative_responses : List Str := [['是'], chars ("yes"), ['對'], ['有']]

/-- camera_daemon.py line 98. -/
def negative_responses : List Str := [['否'], chars ("no"), ['錯'], ['沒', '有']]

/-- Intent of the trigger word (camera_daemon.py lines 100-105):
`some true` when the lowered trigger is one of the affirmative keywords,
`some false` when it is one of the negative keywords, else `none`. -/
def triggerIntentOf (t : Str) : Option Bool :=
  if toLowerS t ∈ affirmative_responses.map toLowerS then some true
  else if toLowerS t ∈ negative_responses.map toLowerS then some false
  else none

/-- Case-insensitive keyword search in the lowered answer: does any keyword of
the set occur in it (camera_daemon.py lines 112-113 and 117-118)? -/
def containsAny (keywords : List Str) (low : Str) : Bool :=
  keywords.any fun k => isSub (toLowerS k) low

/-- `check_trigger(trigger, response)` (src/camera_daemon.py lines 29-126).
An empty trigger is rejected up front; both strings are then stripped.
Strategy 1: if the numeric-trigger regex matches, the answer is scanned for
numbers and the result is whether any of them satisfies the comparison (the
`float()` call never fails on a scanned string, so the `except` skip is
vacuous).  Strategy 2: intent keyword matching on the lowered strings.
Strategy 3: literal substring containment. -/
def check_trigger (trigger response : Str) : Bool :=
  if trigger = [] then false
  else
    let t := pyStrip trigger
    let r := pyStrip response
    match parseNumericTrigger t with
    | some (op, target) => (findNumbers r).any fun v => evalOp op v target
    | none =>
      match triggerIntentOf t with
      | some true =>
        containsAny affirmative_responses (toLowerS r)
          && !containsAny negative_responses (toLowerS r)
      | some false =>
        containsAny negative_responses (toLowerS r)
          && !containsAny affirmative_responses (toLowerS r)
      | none => isSub t r

example : check_trigger (chars (">80")) (chars ("the level is 85%")) = true := by decide
example : check_trigger (chars (">80")) (chars ("the level is 65%")) = false := by decide
example : check_trigger (chars ("=50")) (chars ("value: 50.009")) = true := by decide
example : check_trigger (chars ("=50")) (chars ("value: 50.02")) = false := by decide
example : check_trigger (chars ("否")) (chars ("沒有帽子")) = false := by decide
example : check_trigger (chars ("車庫門")) (chars ("目前看到車庫門關著")) = true := by decide
example : check_trigger [' '] (chars ("anything")) = true := by decide
example : check_trigger [] (chars ("anything")) = false := by decide
example : findNumbers (chars ("1.2.3")) = [⟨12, 1⟩, ⟨3, 1⟩] := by decide

/-- A BGR pixel: the three channel samples in OpenCV channel order. -/
abbrev Pix := Nat × Nat × Nat

/-- A captured frame: a grid of BGR pixels (rows of pixels). -/
abbrev Frame := List (List Pix)

/-- A single-channel grid of intensities. -/
abbrev GrayFrame := List (List Nat)

/-- Luma of one BGR pixel: the fixed-point weighting
`0.299 R + 0.587 G + 0.114 B` used by `cv2.cvtColor(, COLOR_BGR2GRAY)`. -/
def bgr2gray (p : Pix) : Nat :=
  (4899 * p.2.2 + 9617 * p.2.1 + 1868 * p.1 + 8192) / 16384

/-- `cv2.cvtColor(frame, COLOR_BGR2GRAY)` (image_utils.py lines 159-160). -/
def cvtGray (f : Frame) : GrayFrame := f.map fun row => row.map bgr2gray

/-- Row `i` of a grid ([] when out of range). -/
def rowAt (g : GrayFrame) (i : Nat) : List Nat := (g[i]?).getD []

/-- Smoothed intensity at one position: the mean over the in-bounds part of
the centred 21 x 21 window. -/
def blurAt (g : GrayFrame) (i j : Nat) : Nat :=
  let vals := ((List.range g.length).filter fun r => r ≤ i + 10 && i ≤ r + 10).flatMap
    fun r => ((List.range (rowAt g r).length).filter fun c => c ≤ j + 10 && j ≤ c + 10).map
      fun c => ((rowAt g r)[c]?).getD 0
  vals.sum / vals.length

/-- `cv2.GaussianBlur(gray, (21, 21), 0)` (image_utils.py lines 164-165),
modelled as a 21 x 21 window smoothing: a shape-preserving local averaging of
one frame.  The properties proved below depend only on the blur being a
function of the single input frame that preserves the grid shape, which any
fixed-kernel smoothing (Gaussian or otherwise) satisfies. -/
def gaussianBlur (g : GrayFrame) : GrayFrame :=
  (List.range g.length).map fun i =>
    (List.range (rowAt g i).length).map fun j => blurAt g i j

/-- `cv2.absdiff(gray1, gray2)` (image_utils.py line 168): per-pixel absolute
difference of intensities. -/
def absdiffF (g1 g2 : GrayFrame) : GrayFrame :=
  List.zipWith (List.zipWith fun a b => max a b - min a b) g1 g2

/-- `cv2.threshold(diff, 30, 255, THRESH_BINARY)` (image_utils.py line 172):
pixels strictly above 30 become 255, the rest 0. -/
def thresholdBin (d : GrayFrame) : GrayFrame :=
  d.map fun row => row.map fun v => if 30 < v then 255 else 0

/-- `np.count_nonzero` (image_utils.py line 175). -/
def countNonZero (g : GrayFrame) : Nat :=
  (g.map fun row => row.countP fun v => v != 0).sum

/-- `.size` of a grid: total number of entries (image_utils.py line 176). -/
def gridSize (g : GrayFrame) : Nat := (g.map List.length).sum

/-- Total number of pixels of a frame. -/
def frameSize (f : Frame) : Nat := (f.map List.length).sum

/-- `calculate_diff(frame1, frame2)` (src/image_utils.py lines 138-183):
`None` guards, grayscale conversion, blur, absolute difference, binary
threshold, then the changed-pixel percentage with a zero-size guard. -/
def calculate_diff (frame1 frame2 : Option Frame) : ℚ :=
  match frame1, frame2 with
  | none, _ => 0
  | _, none => 0
  | some f1, some f2 =>
    let g1 := gaussianBlur (cvtGray f1)
    let g2 := gaussianBlur (cvtGray f2)
    let th := thresholdBin (absdiffF g1 g2)
    if gridSize th = 0 then 0
    else ((countNonZero th : ℚ) / (gridSize th : ℚ)) * 100

theorem pow10_eq (n : Nat) : pow10 n = (10 : Int) ^ n := by
  induction n with
  | zero => rfl
  | succ k ih => rw [pow10, ih, pow_succ]; ring

theorem iabs_eq (x : Int) : iabs x = |x| := by
  unfold iabs
  split
  · exact (abs_of_neg (by assumption)).symm
  · exact (abs_of_nonneg (by omega)).symm

theorem pow10_pos (n : Nat) : 0 < pow10 n := by
  rw [pow10_eq]; positivity

/-- The cross-multiplied strict order on scaled decimals is the rational one. -/
theorem dlt_iff (a b : Deci) : dlt a b = true ↔ a.toRat < b.toRat := by
  unfold dlt Deci.toRat
  rw [decide_eq_true_eq, div_lt_div_iff (by positivity) (by positivity),
    pow10_eq, pow10_eq]
  exact_mod_cast Iff.rfl

/-- The cross-multiplied order on scaled decimals is the rational one. -/
theorem dle_iff (a b : Deci) : dle a b = true ↔ a.toRat ≤ b.toRat := by
  unfold dle Deci.toRat
  rw [decide_eq_true_eq, div_le_div_iff (by positivity) (by positivity),
    pow10_eq, pow10_eq]
  exact_mod_cast Iff.rfl

theorem deci_sub_eq (a b : Deci) : a.toRat - b.toRat
    = ((a.mant * (10 : Int) ^ b.scale - b.mant * (10 : Int) ^ a.scale : Int) : ℚ)
      / (10 : ℚ) ^ (a.scale + b.scale) := by
  unfold Deci.toRat
  have h1 : ((10 : ℚ) ^ a.scale) ≠ 0 := by positivity
  have h2 : ((10 : ℚ) ^ b.scale) ≠ 0 := by positivity
  field_simp
  ring

/-- The cross-multiplied tolerance test is the rational `|a - b| < 1/100`. -/
theorem dCloseLt_iff (a b : Deci) :
    dCloseLt a b = true ↔ |a.toRat - b.toRat| < 1 / 100 := by
  have hD : (0 : ℚ) < (10 : ℚ) ^ (a.scale + b.scale) := by positivity
  have h1 : |a.toRat - b.toRat|
      = ((|a.mant * (10 : Int) ^ b.scale - b.mant * (10 : Int) ^ a.scale| : Int) : ℚ)
        / (10 : ℚ) ^ (a.scale + b.scale) := by
    rw [deci_sub_eq, abs_div, abs_of_pos hD, Int.cast_abs]
  unfold dCloseLt
  rw [decide_eq_true_eq, h1, div_lt_div_iff hD (by norm_num), one_mul]
  simp only [iabs_eq, pow10_eq]
  rw [show ((10 : ℚ) ^ (a.scale + b.scale))
      = (((10 : Int) ^ (a.scale + b.scale) : Int) : ℚ) by push_cast; ring]
  rw [show ((|a.mant * (10 : Int) ^ b.scale - b.mant * (10 : Int) ^ a.scale| : Int) : ℚ)
        * (100 : ℚ)
      = ((100 * |a.mant * (10 : Int) ^ b.scale - b.mant * (10 : Int) ^ a.scale| : Int) : ℚ)
      by push_cast; ring]
  exact Int.cast_lt.symm

/-- The cross-multiplied distance test is the rational `|a - b| > 1/100`. -/
theorem dFarGt_iff (a b : Deci) :
    dFarGt a b = true ↔ 1 / 100 < |a.toRat - b.toRat| := by
  have hD : (0 : ℚ) < (10 : ℚ) ^ (a.scale + b.scale) := by positivity
  have h1 : |a.toRat - b.toRat|
      = ((|a.mant * (10 : Int) ^ b.scale - b.mant * (10 : Int) ^ a.scale| : Int) : ℚ)
        / (10 : ℚ) ^ (a.scale + b.scale) := by
    rw [deci_sub_eq, abs_div, abs_of_pos hD, Int.cast_abs]
  unfold dFarGt
  rw [decide_eq_true_eq, h1, div_lt_div_iff (by norm_num) hD, one_mul]
  simp only [iabs_eq, pow10_eq]
  rw [show ((10 : ℚ) ^ (a.scale + b.scale))
      = (((10 : Int) ^ (a.scale + b.scale) : Int) : ℚ) by push_cast; ring]
  rw [show ((|a.mant * (10 : Int) ^ b.scale - b.mant * (10 : Int) ^ a.scale| : Int) : ℚ)
        * (100 : ℚ)
      = ((100 * |a.mant * (10 : Int) ^ b.scale - b.mant * (10 : Int) ^ a.scale| : Int) : ℚ)
      by push_cast; ring]
  exact Int.cast_lt.symm

theorem parseOpAt_head {c : Char} {r : Str} {x : NumOp × Str}
    (h : parseOpAt (c :: r) = some x) : c = '<' ∨ c = '>' ∨ c = '!' ∨ c = '=' := by
  by_cases h1 : c = '<'
  · exact Or.inl h1
  · by_cases h2 : c = '>'
    · exact Or.inr (Or.inl h2)
    · by_cases h3 : c = '!'
      · exact Or.inr (Or.inr (Or.inl h3))
      · by_cases h4 : c = '='
        · exact Or.inr (Or.inr (Or.inr h4))
        · exfalso
          simp only [parseOpAt] at h
          rw [if_neg h1, if_neg h2, if_neg h3, if_neg h4] at h
          exact absurd h (by simp)

/-- A trigger word with an intent starts, after lowering, with the head
character of one of the eight keywords. -/
theorem intent_head {c : Char} {r : Str} {b : Bool}
    (h : triggerIntentOf (c :: r) = some b) :
    Char.toLower c ∈ ['是', 'y', '對', '有', '否', 'n', '錯', '沒'] := by
  unfold triggerIntentOf at h
  have haff : affirmative_responses.map toLowerS
      = [['是'], ['y', 'e', 's'], ['對'], ['有']] := by decide
  have hneg : negative_responses.map toLowerS
      = [['否'], ['n', 'o'], ['錯'], ['沒', '有']] := by decide
  rw [haff, hneg] at h
  split_ifs at h with ha hn
  · simp only [toLowerS, List.map_cons, List.mem_cons, List.mem_singleton] at ha
    rcases ha with h1 | h1 | h1 | h1 | h1 <;> simp_all
  · simp only [toLowerS, List.map_cons, List.mem_cons, List.mem_singleton] at hn
    rcases hn with h1 | h1 | h1 | h1 | h1 <;> simp_all

/-- A trigger that names an intent keyword never matches the numeric-trigger
regex: the regex needs an operator character first, and no keyword starts
with one. -/
theorem parse_none_of_intent {s : Str} {b : Bool}
    (h : triggerIntentOf s = some b) : parseNumericTrigger s = none := by
  cases hp : parseNumericTrigger s with
  | none => rfl
  | some x =>
    exfalso
    have hop : ∃ p, parseOpAt s = some p := by
      unfold parseNumericTrigger at hp
      cases ho : parseOpAt s with
      | none => rw [ho] at hp; exact absurd hp (by simp)
      | some p => exact ⟨p, rfl⟩
    obtain ⟨p, hop⟩ := hop
    cases s with
    | nil => exact absurd hop (by simp [parseOpAt])
    | cons c r =>
      have hl := intent_head h
      rcases parseOpAt_head hop with rfl | rfl | rfl | rfl <;>
        exact absurd hl (by decide)

theorem pyStrip_nil : pyStrip [] = [] := rfl

theorem parseNumericTrigger_nil : parseNumericTrigger [] = none := rfl

theorem beginsWith_iff (n : Str) : ∀ h : Str,
    (beginsWith n h = true ↔ ∃ v, h = n ++ v) := by
  induction n with
  | nil =>
    intro h
    simp [beginsWith]
  | cons a n ih =>
    intro h
    cases h with
    | nil =>
      simp [beginsWith]
    | cons b h2 =>
      simp only [beginsWith, Bool.and_eq_true, beq_iff_eq, ih h2]
      constructor
      · rintro ⟨rfl, v, rfl⟩
        exact ⟨v, rfl⟩
      · rintro ⟨v, hv⟩
        simp only [List.cons_append, List.cons.injEq] at hv
        exact ⟨hv.1.symm, v, hv.2⟩

/-- `isSub` is exactly Python's contiguous-substring containment. -/
theorem isSub_iff (n : Str) : ∀ h : Str,
    (isSub n h = true ↔ ∃ u v, h = u ++ n ++ v) := by
  intro h
  induction h with
  | nil =>
    simp only [isSub, List.isEmpty_iff]
    constructor
    · rintro rfl
      exact ⟨[], [], rfl⟩
    · rintro ⟨u, v, huv⟩
      have := congrArg List.length huv
      simp [List.length_append] at this
      exact List.length_eq_zero.mp (by omega)
  | cons c t ih =>
    simp only [isSub, Bool.or_eq_true, beginsWith_iff, ih]
    constructor
    · rintro (⟨v, hv⟩ | ⟨u, v, huv⟩)
      · exact ⟨[], v, by simp [hv]⟩
      · exact ⟨c :: u, v, by simp [huv]⟩
    · rintro ⟨u, v, huv⟩
      cases u with
      | nil =>
        simp only [List.nil_append] at huv
        exact Or.inl ⟨v, huv⟩
      | cons b u2 =>
        simp only [List.cons_append, List.cons.injEq] at huv
        exact Or.inr ⟨u2, v, huv.2⟩

theorem isSub_singleton_of_mem {c : Char} {h : Str} (hm : c ∈ h) :
    isSub [c] h = true := by
  obtain ⟨u, v, rfl⟩ := List.append_of_mem hm
  exact (isSub_iff [c] (u ++ c :: v)).mpr ⟨u, v, by simp⟩

theorem mem_of_isSub {n h : Str} {x : Char} (hs : isSub n h = true) (hx : x ∈ n) :
    x ∈ h := by
  obtain ⟨u, v, rfl⟩ := (isSub_iff n h).mp hs
  simp [List.mem_append, hx]

theorem mem_dropWhile_of_mem {p : Char → Bool} {c : Char} :
    ∀ {l : Str}, c ∈ l → p c = false → c ∈ l.dropWhile p := by
  intro l
  induction l with
  | nil => intro hm _; exact absurd hm (by simp)
  | cons a t ih =>
    intro hm hc
    rw [List.dropWhile_cons]
    by_cases ha : p a = true
    · rw [if_pos ha]
      rcases List.mem_cons.mp hm with rfl | ht
      · rw [hc] at ha; exact absurd ha (by simp)
      · exact ih ht hc
    · rw [if_neg ha]
      exact hm

/-- A non-whitespace character of a string survives stripping. -/
theorem mem_pyStrip_of_mem {c : Char} {s : Str} (hm : c ∈ s)
    (hc : isPySpace c = false) : c ∈ pyStrip s := by
  unfold pyStrip
  rw [List.mem_reverse]
  apply mem_dropWhile_of_mem _ hc
  rw [List.mem_reverse]
  exact mem_dropWhile_of_mem hm hc

theorem triggerIntentOf_nil : triggerIntentOf [] = none := by decide

theorem triggerIntentOf_ne_nil {b : Bool} {s : Str}
    (h : triggerIntentOf s = some b) : s ≠ [] := by
  intro he
  subst he
  rw [triggerIntentOf_nil] at h
  exact absurd h (by simp)

/-- When the stripped trigger matches the numeric regex, `check_trigger` is
Strategy 1 and nothing else: the scan of the stripped answer, tested
against the operator, any hit winning. -/
theorem check_trigger_numeric {t ans : Str} {op : NumOp} {T : Deci}
    (h : parseNumericTrigger (pyStrip t) = some (op, T)) :
    check_trigger t ans = ((findNumbers (pyStrip ans)).any fun v => evalOp op v T) := by
  have ht : ¬ (t = []) := by
    intro he
    subst he
    rw [pyStrip_nil, parseNumericTrigger_nil] at h
    exact absurd h (by simp)
  unfold check_trigger
  rw [if_neg ht]
  simp only [h]

/-- When the stripped trigger is an affirmative keyword, `check_trigger` is
Strategy 2's affirmative branch and nothing else. -/
theorem check_trigger_affirm {t ans : Str}
    (h : triggerIntentOf (pyStrip t) = some true) :
    check_trigger t ans
      = (containsAny affirmative_responses (toLowerS (pyStrip ans))
          && !containsAny negative_responses (toLowerS (pyStrip ans))) := by
  have ht : ¬ (t = []) := by
    intro he
    subst he
    rw [pyStrip_nil, triggerIntentOf_nil] at h
    exact absurd h (by simp)
  unfold check_trigger
  rw [if_neg ht]
  simp only [parse_none_of_intent h, h]

/-- When the stripped trigger is a negative keyword, `check_trigger` is
Strategy 2's negative branch and nothing else. -/
theorem check_trigger_negintent {t ans : Str}
    (h : triggerIntentOf (pyStrip t) = some false) :
    check_trigger t ans
      = (containsAny negative_responses (toLowerS (pyStrip ans))
          && !containsAny affirmative_responses (toLowerS (pyStrip ans))) := by
  have ht : ¬ (t = []) := by
    intro he
    subst he
    rw [pyStrip_nil, triggerIntentOf_nil] at h
    exact absurd h (by simp)
  unfold check_trigger
  rw [if_neg ht]
  simp only [parse_none_of_intent h, h]

/-- C7: the Trigger Evaluator is total.  The empty spec yields false for every
answer, and every spec/answer pair resolves to a boolean: the embedding is a
total function into Bool, and no whole-operation failure exists (every string
the scan emits is a decimal literal, so the per-number parse never fails and
the individual-skip branch is vacuous). -/
theorem c7_empty_spec_false :
    (∀ ans : Str, check_trigger [] ans = false)
      ∧ ∀ t ans : Str, check_trigger t ans = true ∨ check_trigger t ans = false := by
  refine ⟨fun ans => rfl, fun t ans => ?_⟩
  cases check_trigger t ans
  · exact Or.inr rfl
  · exact Or.inl rfl

/-- C1: refuted on the code.  A spec of the form `==N` is not handled by
Strategy 1: the alternation `[<>]=?|!=|=` of the trigger regex can only take
the single-character branch `=` on it, after which a digit is required and the
second `=` fails the match, so `==50` falls through to literal substring
matching while `=50` is a numeric comparison.  The dead comparison
`operator == '=='` on camera_daemon.py line 81 shows `==` was meant to be
accepted. -/
theorem c1_double_equals_not_numeric :
    parseNumericTrigger (chars ("==50")) = none
      ∧ check_trigger (chars ("==50")) (chars ("the value is 50")) = false
      ∧ check_trigger (chars ("=50")) (chars ("the value is 50")) = true :=
  ⟨by decide, by decide, by decide⟩

/-- C2: counterexample.  The number pattern `[-+]?\d*\.\d+|\d+` attaches a
sign only to its decimal alternative, so the answer `-5` yields the value 5
and the spec `<0` evaluates to false, where the claim says true. -/
theorem c2_counterexample :
    check_trigger (chars ("<0")) (chars ("-5")) = false := by decide

/-- C2 amended: the scan attaches a leading sign only to numbers with a
decimal point; a bare integer is matched unsigned by the alternative `\d+`.
So `-5` is extracted as 5 while `-5.0` is extracted as -5, and `<0` holds
against an answer of `-5.0` but not against `-5`. -/
theorem c2_sign_only_on_decimals :
    (findNumbers (chars ("-5"))).map Deci.toRat = [5]
      ∧ (findNumbers (chars ("-5.0"))).map Deci.toRat = [-5]
      ∧ check_trigger (chars ("<0")) (chars ("-5.0")) = true
      ∧ check_trigger (chars ("<0")) (chars ("-5")) = false := by
  have h1 : findNumbers (chars ("-5")) = [⟨5, 0⟩] := by decide
  have h2 : findNumbers (chars ("-5.0")) = [⟨-50, 1⟩] := by decide
  refine ⟨?_, ?_, by decide, by decide⟩
  · rw [h1]
    norm_num [Deci.toRat]
  · rw [h2]
    norm_num [Deci.toRat]

/-- C3: counterexample.  With spec `!=5` and an answer containing 5.01, the
evaluator returns false where the claim says true: the code tests
`abs(val - target_val) > 0.01` strictly (camera_daemon.py line 84), not
`≥ 0.01`, and the program's double difference here is
0.009999999999999787, which does not exceed the tolerance; the exact model
agrees at this input. -/
theorem c3_counterexample :
    check_trigger (chars ("!=5")) (chars ("sensor shows 5.01")) = false := by decide

/-- C3 amended: the `!=` comparison is the strict test
`abs(val - target_val) > 0.01` (camera_daemon.py line 84), not `≥ 0.01` as
the claim's table states, so `=` and `!=` are not complementary at the
tolerance boundary, and which side a boundary answer lands on follows the
rounded double difference, not the claimed `exactly 0.01 implies true`.
Concretely for spec `!=5`: the answer 5.01 yields the program difference
0.009999999999999787, fails the strict test and evaluates to false where the
claim says true; 5.02 yields 0.019999999999999574 and evaluates to true; an
exact hit 5 evaluates to false.  On all three inputs the program's double
arithmetic and this exact-decimal model agree. -/
theorem c3_ne_strict_boundary :
    check_trigger (chars ("!=5")) (chars ("sensor shows 5.01")) = false
      ∧ check_trigger (chars ("!=5")) (chars ("sensor shows 5.02")) = true
      ∧ check_trigger (chars ("!=5")) (chars ("sensor shows 5")) = false :=
  ⟨by decide, by decide, by decide⟩

/-- C5: for a spec matching the numeric form, the result is true iff at least
one extracted number satisfies the operator condition (a logical OR over the
scan), an answer without numbers gives false, and the result is that of
Strategy 1 alone - Strategies 2 and 3 are never consulted. -/
theorem c5_numeric_or {t ans : Str} {op : NumOp} {T : Deci}
    (h : parseNumericTrigger (pyStrip t) = some (op, T)) :
    (check_trigger t ans = true
        ↔ ∃ v ∈ findNumbers (pyStrip ans), evalOp op v T = true)
      ∧ (findNumbers (pyStrip ans) = [] → check_trigger t ans = false) := by
  constructor
  · rw [check_trigger_numeric h]
    exact List.any_eq_true
  · intro he
    rw [check_trigger_numeric h, he]
    rfl

/-- C5, witnessed on the spec example: `<30` against
`left reading 45, right reading 20` is true because of the second number. -/
theorem c5_numeric_or_witness :
    check_trigger (chars ("<30")) (chars ("left reading 45, right reading 20"))
      = true := by
  have h : parseNumericTrigger (pyStrip (chars ("<30"))) = some (.lt, ⟨30, 0⟩) := by
    decide
  exact (c5_numeric_or h).1.mpr ⟨⟨20, 0⟩, by decide, by decide⟩

/-- C9: a nonempty all-whitespace spec strips to the empty string, which
matches neither the numeric pattern nor an intent keyword, and the empty
string is a substring of every answer, so evaluation returns true for every
answer - in contrast with the genuinely empty spec, which returns false. -/
theorem c9_whitespace_spec_true {t : Str} (hne : t ≠ [])
    (hsp : ∀ c ∈ t, isPySpace c = true) :
    (∀ ans : Str, check_trigger t ans = true)
      ∧ ∀ ans : Str, check_trigger [] ans = false := by
  have hstrip : pyStrip t = [] := by
    unfold pyStrip
    rw [List.dropWhile_eq_nil_iff.mpr hsp]
    rfl
  refine ⟨fun ans => ?_, fun ans => rfl⟩
  unfold check_trigger
  rw [if_neg hne]
  simp only [hstrip, parseNumericTrigger_nil, triggerIntentOf_nil]
  cases pyStrip ans
  · rfl
  · rfl

/-- C9, witnessed at the one-space spec. -/
theorem c9_whitespace_spec_true_witness :
    check_trigger [' '] (chars ("any answer")) = true :=
  (c9_whitespace_spec_true (by decide) (by decide)).1 (chars ("any answer"))

/-- C10: for every negative-intent spec and every answer containing the
substring 沒有, evaluation returns false - the affirmative keyword 有 is a
substring of 沒有, so such an answer always registers an affirmative keyword,
which the negative rule forbids. -/
theorem c10_meiyou_always_false {t ans : Str}
    (hi : triggerIntentOf (pyStrip t) = some false)
    (hm : isSub ['沒', '有'] ans = true) :
    check_trigger t ans = false := by
  rw [check_trigger_negintent hi]
  have h1 : '有' ∈ ans := mem_of_isSub hm (by decide)
  have h2 : '有' ∈ pyStrip ans := mem_pyStrip_of_mem h1 (by decide)
  have h3 : '有' ∈ toLowerS (pyStrip ans) := by
    have hmem := List.mem_map_of_mem Char.toLower h2
    rw [show Char.toLower '有' = '有' from by decide] at hmem
    exact hmem
  have h4 : containsAny affirmative_responses (toLowerS (pyStrip ans)) = true := by
    unfold containsAny
    rw [List.any_eq_true]
    refine ⟨['有'], by decide, ?_⟩
    rw [show toLowerS ['有'] = ['有'] from by decide]
    exact isSub_singleton_of_mem h3
  rw [h4]
  simp

/-- C10, witnessed at the spec 否 and an answer containing 沒有. -/
theorem c10_meiyou_always_false_witness :
    check_trigger ['否'] (chars ("畫面中沒有人")) = false :=
  c10_meiyou_always_false (by decide) (by decide)

/-- C4: Strategy 2.  For a spec that is (case-insensitively) an affirmative
keyword, the result is true exactly when the lowered answer contains at least
one affirmative keyword and no negative keyword; for a negative-keyword spec
symmetrically.  An answer containing keywords of both sets therefore always
yields false, whichever the spec's intent. -/
theorem c4_intent_matching {t ans : Str} :
    (toLowerS (pyStrip t) ∈ affirmative_responses →
      (check_trigger t ans = true
        ↔ ((∃ k ∈ affirmative_responses,
              isSub (toLowerS k) (toLowerS (pyStrip ans)) = true)
            ∧ ∀ k ∈ negative_responses,
              isSub (toLowerS k) (toLowerS (pyStrip ans)) = false)))
    ∧ (toLowerS (pyStrip t) ∈ negative_responses →
      (check_trigger t ans = true
        ↔ ((∃ k ∈ negative_responses,
              isSub (toLowerS k) (toLowerS (pyStrip ans)) = true)
            ∧ ∀ k ∈ affirmative_responses,
              isSub (toLowerS k) (toLowerS (pyStrip ans)) = false))) := by
  constructor
  · intro haff
    have hi : triggerIntentOf (pyStrip t) = some true := by
      unfold triggerIntentOf
      rw [if_pos]
      rwa [show affirmative_responses.map toLowerS = affirmative_responses from
        by decide]
    rw [check_trigger_affirm hi, Bool.and_eq_true, Bool.not_eq_true']
    unfold containsAny
    simp only [List.any_eq_true, List.any_eq_false, Bool.not_eq_true]
  · intro hneg
    have hi : triggerIntentOf (pyStrip t) = some false := by
      unfold triggerIntentOf
      have hna : toLowerS (pyStrip t) ∉ affirmative_responses.map toLowerS := by
        rw [show affirmative_responses.map toLowerS = affirmative_responses from
          by decide]
        exact (by decide : ∀ x ∈ negative_responses, x ∉ affirmative_responses)
          _ hneg
      have hin : toLowerS (pyStrip t) ∈ negative_responses.map toLowerS := by
        rwa [show negative_responses.map toLowerS = negative_responses from
          by decide]
      rw [if_neg hna, if_pos hin]
    rw [check_trigger_negintent hi, Bool.and_eq_true, Bool.not_eq_true']
    unfold containsAny
    simp only [List.any_eq_true, List.any_eq_false, Bool.not_eq_true]

/-- C4, witnessed on the spec examples: `是` against `是，有看到帽子` is true,
and against the ambiguous `是，但其實沒有` (both sets present) is false. -/
theorem c4_intent_matching_witness :
    check_trigger (chars ("是")) (chars ("是，有看到帽子")) = true
      ∧ check_trigger (chars ("是")) (chars ("是，但其實沒有")) = false := by
  constructor
  · exact (c4_intent_matching.1 (by decide)).mpr
      ⟨⟨['是'], by decide, by decide⟩, by decide⟩
  · have hiff :=
      (@c4_intent_matching (chars ("是")) (chars ("是，但其實沒有"))).1 (by decide)
    cases hc : check_trigger (chars ("是")) (chars ("是，但其實沒有"))
    · rfl
    · exact absurd (hiff.mp hc) (by decide)

theorem zipWith_swap {α β : Type} (f : α → α → β) (hf : ∀ x y, f x y = f y x) :
    ∀ l1 l2 : List α, List.zipWith f l1 l2 = List.zipWith f l2 l1 := by
  intro l1
  induction l1 with
  | nil => intro l2; cases l2 <;> rfl
  | cons a t ih =>
    intro l2
    cases l2 with
    | nil => rfl
    | cons b s => simp [List.zipWith_cons_cons, hf a b, ih s]

theorem gridSize_cvtGray (f : Frame) : gridSize (cvtGray f) = frameSize f := by
  unfold gridSize frameSize cvtGray
  rw [List.map_map]
  apply congrArg
  apply List.map_congr_left
  intro row _
  simp

theorem sum_range_rowAt (g : GrayFrame) :
    ((List.range g.length).map fun i => (rowAt g i).length).sum
      = (g.map List.length).sum := by
  induction g with
  | nil => rfl
  | cons r gs ih =>
    rw [List.length_cons, List.range_succ_eq_map, List.map_cons, List.map_map,
      List.sum_cons, List.map_cons, List.sum_cons]
    congr 1
    · simp [rowAt]
    · rw [← ih]
      apply congrArg
      apply List.map_congr_left
      intro a _
      simp [Function.comp, rowAt]

theorem gridSize_gaussianBlur (g : GrayFrame) :
    gridSize (gaussianBlur g) = gridSize g := by
  unfold gaussianBlur gridSize
  rw [List.map_map]
  rw [show (List.length ∘ fun i => (List.range (rowAt g i).length).map
      fun j => blurAt g i j) = fun i => (rowAt g i).length from by
    funext i; simp]
  exact sum_range_rowAt g

theorem gridSize_absdiffF_le_left (g1 g2 : GrayFrame) :
    gridSize (absdiffF g1 g2) ≤ gridSize g1 := by
  unfold absdiffF gridSize
  induction g1 generalizing g2 with
  | nil => simp
  | cons r t ih =>
    cases g2 with
    | nil => simp
    | cons s u =>
      simp only [List.zipWith_cons_cons, List.map_cons, List.sum_cons]
      have h1 := ih u
      have hlen : (List.zipWith (fun a b => max a b - min a b) r s).length
          ≤ r.length := by
        rw [List.length_zipWith]
        omega
      omega

theorem gridSize_absdiffF_le_right (g1 g2 : GrayFrame) :
    gridSize (absdiffF g1 g2) ≤ gridSize g2 := by
  unfold absdiffF gridSize
  induction g1 generalizing g2 with
  | nil => simp
  | cons r t ih =>
    cases g2 with
    | nil => simp
    | cons s u =>
      simp only [List.zipWith_cons_cons, List.map_cons, List.sum_cons]
      have h1 := ih u
      have hlen : (List.zipWith (fun a b => max a b - min a b) r s).length
          ≤ s.length := by
        rw [List.length_zipWith]
        omega
      omega

theorem gridSize_thresholdBin (d : GrayFrame) :
    gridSize (thresholdBin d) = gridSize d := by
  unfold thresholdBin gridSize
  rw [List.map_map]
  apply congrArg
  apply List.map_congr_left
  intro row _
  simp

/-- C8: the Frame Differencer is symmetric, `computeDiff(A, B) =
computeDiff(B, A)`: grayscale and blur act on each frame separately, the
absolute difference is symmetric, and everything after it is a function of
that difference grid. -/
theorem c8_diff_symm (x y : Option Frame) :
    calculate_diff x y = calculate_diff y x := by
  cases x with
  | none => cases y <;> rfl
  | some a =>
    cases y with
    | none => rfl
    | some b =>
      have habs : absdiffF (gaussianBlur (cvtGray a)) (gaussianBlur (cvtGray b))
          = absdiffF (gaussianBlur (cvtGray b)) (gaussianBlur (cvtGray a)) := by
        unfold absdiffF
        apply zipWith_swap
        intro r s
        apply zipWith_swap
        intro u v
        rw [Nat.max_comm, Nat.min_comm]
      unfold calculate_diff
      simp only [habs]

/-- C6: the Frame Differencer never fails on degenerate input: an absent
frame on either side yields 0 (the `None` guard), and a zero-pixel frame
yields the defined score 0 through the `total_pixels == 0` guard rather than
a division error. -/
theorem c6_diff_degenerate :
    (∀ x : Option Frame, calculate_diff none x = 0)
      ∧ (∀ x : Option Frame, calculate_diff x none = 0)
      ∧ ∀ a b : Frame, frameSize a = 0 ∨ frameSize b = 0 →
          calculate_diff (some a) (some b) = 0 := by
  refine ⟨fun x => ?_, fun x => ?_, fun a b h => ?_⟩
  · cases x <;> rfl
  · cases x <;> rfl
  · have hth : gridSize (thresholdBin (absdiffF (gaussianBlur (cvtGray a))
        (gaussianBlur (cvtGray b)))) = 0 := by
      rw [gridSize_thresholdBin]
      rcases h with ha | hb
      · have h1 := gridSize_absdiffF_le_left (gaussianBlur (cvtGray a))
          (gaussianBlur (cvtGray b))
        have h2 : gridSize (gaussianBlur (cvtGray a)) = 0 := by
          rw [gridSize_gaussianBlur, gridSize_cvtGray, ha]
        omega
      · have h1 := gridSize_absdiffF_le_right (gaussianBlur (cvtGray a))
          (gaussianBlur (cvtGray b))
        have h2 : gridSize (gaussianBlur (cvtGray b)) = 0 := by
          rw [gridSize_gaussianBlur, gridSize_cvtGray, hb]
        omega
    unfold calculate_diff
    simp [hth]

/-- C6, witnessed at two empty frames. -/
theorem c6_diff_degenerate_witness :
    frameSize ([] : Frame) = 0 ∧ calculate_diff (some []) (some []) = 0 :=
  ⟨rfl, c6_diff_degenerate.2.2 [] [] (Or.inl rfl)⟩
